import Mathlib

/-!
Verification of the statistical core of `gas_oracle.ts`, a multi-provider
gas-fee oracle: median computation, MAD-based outlier rejection, the fee
recommendation formula, the sample collector's parsing step, and the
orchestration run. All numbers in the source are JavaScript numbers holding
non-negative integers (wei amounts, block numbers); they are modelled as `ℕ`,
with exact rational arithmetic for the one fractional constant (the 12%
jitter factor).
-/

namespace GasOracle

/-- `median(nums)` from `gas_oracle.ts`:
sort a copy ascending, let `m = floor(length/2)`; empty list means 0,
odd length takes the element at `m`, even length takes the floor of the
average of the elements at `m-1` and `m`. -/
def median (nums : List ℕ) : ℕ :=
  let xs := List.insertionSort (· ≤ ·) nums
  let m := xs.length / 2
  if xs.length = 0 then 0
  else if xs.length % 2 = 1 then xs.getD m 0
  else (xs.getD (m - 1) 0 + xs.getD m 0) / 2

/-- `Math.abs(x - med)` on non-negative integers: the absolute deviation. -/
def absDev (x med : ℕ) : ℕ := ((x : ℤ) - (med : ℤ)).natAbs

/-- The MAD value used by `rmOutliers`: `median(xs.map(x => Math.abs(x - med))) || 1`,
i.e. the median of absolute deviations with 1 substituted when it is 0. -/
def madOf (xs : List ℕ) : ℕ :=
  let med := median xs
  let mad0 := median (xs.map fun x => absDev x med)
  if mad0 = 0 then 1 else mad0

/-- `rmOutliers(xs)` from `gas_oracle.ts`: lists shorter than 4 are returned
unchanged; otherwise keep exactly the `x` with `|x - med| <= 3*mad`. -/
def rmOutliers (xs : List ℕ) : List ℕ :=
  if xs.length < 4 then xs
  else
    let med := median xs
    let mad := madOf xs
    xs.filter fun x => absDev x med ≤ 3 * mad

/-- `jitter = 0.12` from `gas_oracle.ts`, as an exact rational. -/
def jitter : ℚ := 12 / 100

/-- The minimum-tip constant `1_000_000` from `gas_oracle.ts`. -/
def minimumTip : ℕ := 1000000

/-- `tip = Math.max(prioMed, 1_000_000)` from `gas_oracle.ts`. -/
def tip (prioMed : ℕ) : ℕ := max prioMed minimumTip

/-- `rec = Math.floor(baseMed * (1 + jitter)) + tip` from `gas_oracle.ts`,
with the floating-point product modelled as exact rational arithmetic. -/
def recFee (baseMed prioMed : ℕ) : ℤ :=
  ⌊(baseMed : ℚ) * (1 + jitter)⌋ + (tip prioMed : ℤ)

/-- The `Sample` type of `gas_oracle.ts`: one observation from one provider. -/
structure Sample where
  name : String
  base : ℕ
  prio : ℕ
  block : ℕ
  deriving DecidableEq, Repr

/-- The JSON object printed by the main IIFE of `gas_oracle.ts`
(the `pretty` block is presentation-only scaling and is omitted). -/
structure Recommendation where
  providers : List String
  baseMedianWei : ℕ
  prioMedianWei : ℕ
  recommendedWei : ℤ
  deriving DecidableEq, Repr

/-- The main IIFE of `gas_oracle.ts` after sample collection: with no samples
it prints `no samples` to stderr and exits with status 1 (modelled as
`Except.error`); otherwise it filters each column, takes medians, and builds
the recommendation record. -/
def runOracle (samples : List Sample) : Except String Recommendation :=
  if samples.length = 0 then .error "no samples"
  else
    let bases := rmOutliers (samples.map (·.base))
    let prios := rmOutliers (samples.map (·.prio))
    let baseMed := median bases
    let prioMed := median prios
    .ok { providers := samples.map (·.name)
          baseMedianWei := baseMed
          prioMedianWei := prioMed
          recommendedWei := recFee baseMed prioMed }

/-- One provider's `eth_feeHistory` outcome as consumed by `sample` in
`gas_oracle.ts`: either the query or field access threw (network failure,
non-object response — the `catch` path), or it returned a record whose
optional fields carry the already-decoded numeric values: the per-block
`baseFeePerGas` list, the per-block `reward` lists, and `oldestBlock`. -/
inductive ProviderResult where
  | err : ProviderResult
  | ok (baseFeePerGas : Option (List ℕ)) (reward : Option (List (List ℕ)))
      (oldestBlock : Option ℕ) : ProviderResult
  deriving DecidableEq, Repr

/-- A provider response carrying every field the Sample data model requires:
a nonempty base-fee list, a nonempty reward list, and a block number. -/
def ProviderResult.complete : ProviderResult → Prop
  | .err => False
  | .ok b r o =>
      (∃ l, b = some l ∧ l ≠ []) ∧ (∃ l, r = some l ∧ l ≠ []) ∧ o ≠ none

/-- `sample(name, url)` from `gas_oracle.ts` with the network call abstracted
into its outcome: the `catch` branch returns null (`none`); otherwise
`base = Number(fee.baseFeePerGas?.[0] || "0x0")`,
`prio = prios.sort(...)[floor(prios.length/2)] || 0` over
`prios = fee.reward?.[0] || []`, and `blk = Number(fee.oldestBlock || 0)`,
with absent fields falling back to the zero defaults. -/
def sampleOf (name : String) (r : ProviderResult) : Option Sample :=
  match r with
  | .err => none
  | .ok baseFeePerGas reward oldestBlock =>
    let base := ((baseFeePerGas.getD []).head?).getD 0
    let prios := (reward.getD []).headD []
    let prio := (List.insertionSort (· ≤ ·) prios).getD (prios.length / 2) 0
    let blk := oldestBlock.getD 0
    some { name := name, base := base, prio := prio, block := blk }

end GasOracle

namespace GasOracle

/-- Sorting is canonical: `insertionSort` of `nums` is the unique sorted
permutation of `nums`. -/
theorem insertionSort_eq_of_sorted (nums ys : List ℕ) (hperm : nums.Perm ys)
    (hsort : ys.Sorted (· ≤ ·)) : List.insertionSort (· ≤ ·) nums = ys :=
  List.eq_of_perm_of_sorted ((List.perm_insertionSort _ nums).trans hperm)
    (List.sorted_insertionSort _ nums) hsort

/-- In a sorted list, entries at smaller indices are no larger. -/
theorem sorted_getD_le (s : List ℕ) (hs : s.Sorted (· ≤ ·)) (i j : ℕ)
    (hij : i ≤ j) (hj : j < s.length) : s.getD i 0 ≤ s.getD j 0 := by
  have hi : i < s.length := lt_of_le_of_lt hij hj
  have h := hs.rel_get_of_le (a := ⟨i, hi⟩) (b := ⟨j, hj⟩) (Fin.mk_le_mk.mpr hij)
  simpa [List.getD_eq_getElem?_getD, List.getElem?_eq_getElem, hi, hj,
    List.get_eq_getElem] using h

/-- The median characterized through any sorted permutation of the input. -/
theorem median_eq_sorted (nums ys : List ℕ) (hperm : nums.Perm ys)
    (hsort : ys.Sorted (· ≤ ·)) :
    median nums =
      if nums.length = 0 then 0
      else if nums.length % 2 = 1 then ys.getD (nums.length / 2) 0
      else (ys.getD (nums.length / 2 - 1) 0 + ys.getD (nums.length / 2) 0) / 2 := by
  have hs : List.insertionSort (· ≤ ·) nums = ys :=
    insertionSort_eq_of_sorted nums ys hperm hsort
  have hlen : ys.length = nums.length := (hperm.symm).length_eq
  simp only [median, hs, hlen]

/-- Unfolding of `rmOutliers` on lists of length at least 4. -/
theorem rmOutliers_eq_filter (xs : List ℕ) (h : ¬xs.length < 4) :
    rmOutliers xs = xs.filter fun x => absDev x (median xs) ≤ 3 * madOf xs := by
  simp [rmOutliers, h]

/-- C1: `median` returns 0 on the empty sequence; for odd length `n` it returns
the element at index `n/2` of the ascending sort; for even length the floor of
the average of the two middle sorted elements; in particular
`median [1,3] = 2`, `median [1,2,3] = 2`, `median [] = 0`. -/
theorem median_spec (nums ys : List ℕ) (hperm : nums.Perm ys)
    (hsort : ys.Sorted (· ≤ ·)) :
    median ([] : List ℕ) = 0 ∧
    (nums.length % 2 = 1 → median nums = ys.getD (nums.length / 2) 0) ∧
    (nums.length ≠ 0 → nums.length % 2 = 0 →
      median nums =
        (ys.getD (nums.length / 2 - 1) 0 + ys.getD (nums.length / 2) 0) / 2) ∧
    median [1, 3] = 2 ∧ median [1, 2, 3] = 2 := by
  have h := median_eq_sorted nums ys hperm hsort
  refine ⟨by decide, ?_, ?_, by decide, by decide⟩
  · intro hodd
    rw [h, if_neg (by omega), if_pos hodd]
  · intro h0 heven
    rw [h, if_neg h0, if_neg (by omega)]

/-- Witness for C1 at the concrete input `[3,1]` with sorted form `[1,3]`. -/
theorem median_spec_witness :
    median ([] : List ℕ) = 0 ∧
    (([3, 1] : List ℕ).length % 2 = 1 →
      median [3, 1] = ([1, 3] : List ℕ).getD (([3, 1] : List ℕ).length / 2) 0) ∧
    (([3, 1] : List ℕ).length ≠ 0 → ([3, 1] : List ℕ).length % 2 = 0 →
      median [3, 1] =
        (([1, 3] : List ℕ).getD (([3, 1] : List ℕ).length / 2 - 1) 0 +
          ([1, 3] : List ℕ).getD (([3, 1] : List ℕ).length / 2) 0) / 2) ∧
    median [1, 3] = 2 ∧ median [1, 2, 3] = 2 :=
  median_spec [3, 1] [1, 3] (by decide) (by decide)

/-- C3: for inputs with fewer than 4 elements the outlier filter returns the
input unchanged, same elements in the same order. -/
theorem rmOutliers_small (xs : List ℕ) (h : xs.length < 4) : rmOutliers xs = xs := by
  simp [rmOutliers, h]

/-- Witness for C3 at the concrete input `[7,8,9]`. -/
theorem rmOutliers_small_witness : rmOutliers [7, 8, 9] = [7, 8, 9] :=
  rmOutliers_small [7, 8, 9] (by decide)

/-- C2: for inputs of length at least 4 the filter keeps exactly the elements
within `3 * mad` of the median (with the zero-MAD substitution), preserving
relative order; the documented example drops `9999` and keeps the rest. -/
theorem rmOutliers_spec (xs : List ℕ) (h : 4 ≤ xs.length) :
    rmOutliers xs = xs.filter (fun x => absDev x (median xs) ≤ 3 * madOf xs) ∧
    (∀ x, x ∈ rmOutliers xs ↔ x ∈ xs ∧ absDev x (median xs) ≤ 3 * madOf xs) ∧
    rmOutliers [100, 102, 98, 101, 99, 9999] = [100, 102, 98, 101, 99] := by
  have hlt : ¬xs.length < 4 := by omega
  refine ⟨rmOutliers_eq_filter xs hlt, ?_, by decide⟩
  intro x
  rw [rmOutliers_eq_filter xs hlt, List.mem_filter]
  simp

/-- Witness for C2 at the concrete input `[1,2,3,4]`. -/
theorem rmOutliers_spec_witness :
    rmOutliers [1, 2, 3, 4] =
      [1, 2, 3, 4].filter
        (fun x => absDev x (median [1, 2, 3, 4]) ≤ 3 * madOf [1, 2, 3, 4]) ∧
    (∀ x, x ∈ rmOutliers [1, 2, 3, 4] ↔
      x ∈ [1, 2, 3, 4] ∧ absDev x (median [1, 2, 3, 4]) ≤ 3 * madOf [1, 2, 3, 4]) ∧
    rmOutliers [100, 102, 98, 101, 99, 9999] = [100, 102, 98, 101, 99] :=
  rmOutliers_spec [1, 2, 3, 4] (by decide)

/-- C7 counterexample: `[5,5,5,5]` has zero median absolute deviation, `5`
survives the filter, yet `5` is not more than 3 units from the median — so it
is false that only points more than 3 units away survive. -/
theorem rmOutliers_zero_mad_counterexample :
    median ([5, 5, 5, 5].map fun x => absDev x (median [5, 5, 5, 5])) = 0 ∧
    (5 : ℕ) ∈ rmOutliers [5, 5, 5, 5] ∧
    ¬3 < absDev 5 (median [5, 5, 5, 5]) := by
  decide

/-- C7 (amended): for inputs of length at least 4 whose median absolute
deviation is 0, the filter substitutes 1 for the MAD, and exactly the points
at most 3 units from the median survive (points more than 3 away are
rejected). -/
theorem rmOutliers_zero_mad (xs : List ℕ) (h4 : 4 ≤ xs.length)
    (h0 : median (xs.map fun x => absDev x (median xs)) = 0) :
    madOf xs = 1 ∧
    rmOutliers xs = xs.filter fun x => absDev x (median xs) ≤ 3 := by
  have hmad : madOf xs = 1 := by simp [madOf, h0]
  refine ⟨hmad, ?_⟩
  rw [rmOutliers_eq_filter xs (by omega), hmad]

/-- Witness for C7 (amended) at the concrete input `[5,5,5,5]`. -/
theorem rmOutliers_zero_mad_witness :
    madOf [5, 5, 5, 5] = 1 ∧
    rmOutliers [5, 5, 5, 5] =
      [5, 5, 5, 5].filter fun x => absDev x (median [5, 5, 5, 5]) ≤ 3 :=
  rmOutliers_zero_mad [5, 5, 5, 5] (by decide) (by decide)

/-- Every nonempty list of naturals has an element at most its median. -/
theorem exists_le_median (l : List ℕ) (h : l ≠ []) : ∃ a ∈ l, a ≤ median l := by
  have hsort : (List.insertionSort (· ≤ ·) l).Sorted (· ≤ ·) :=
    List.sorted_insertionSort _ l
  have hperm : (List.insertionSort (· ≤ ·) l).Perm l := List.perm_insertionSort _ l
  have hlen : (List.insertionSort (· ≤ ·) l).length = l.length := hperm.length_eq
  have hpos : 0 < l.length := List.length_pos.mpr h
  refine ⟨(List.insertionSort (· ≤ ·) l).getD 0 0, ?_, ?_⟩
  · refine hperm.subset ?_
    rw [List.getD_eq_getElem?_getD, List.getElem?_eq_getElem (by omega)]
    exact List.getElem_mem _
  · rw [median_eq_sorted l _ hperm.symm hsort, if_neg (by omega)]
    by_cases hodd : l.length % 2 = 1
    · rw [if_pos hodd]
      exact sorted_getD_le _ hsort 0 _ (Nat.zero_le _) (by omega)
    · rw [if_neg hodd]
      have h1 : (List.insertionSort (· ≤ ·) l).getD 0 0 ≤
          (List.insertionSort (· ≤ ·) l).getD (l.length / 2 - 1) 0 :=
        sorted_getD_le _ hsort 0 _ (Nat.zero_le _) (by omega)
      have h2 : (List.insertionSort (· ≤ ·) l).getD 0 0 ≤
          (List.insertionSort (· ≤ ·) l).getD (l.length / 2) 0 :=
        sorted_getD_le _ hsort 0 _ (Nat.zero_le _) (by omega)
      omega

/-- The raw median of absolute deviations never exceeds the substituted MAD. -/
theorem median_devs_le_madOf (xs : List ℕ) :
    median (xs.map fun x => absDev x (median xs)) ≤ madOf xs := by
  by_cases h : median (xs.map fun x => absDev x (median xs)) = 0 <;>
    simp [madOf, h]

/-- C8: the outlier filter result is a sublist of the input (never adds
values), and a nonempty input always gives a nonempty result. -/
theorem rmOutliers_sublist_ne_nil (xs : List ℕ) :
    (rmOutliers xs).Sublist xs ∧ (xs ≠ [] → rmOutliers xs ≠ []) := by
  by_cases h : xs.length < 4
  · rw [rmOutliers_small xs h]
    exact ⟨List.Sublist.refl xs, fun h' => h'⟩
  · rw [rmOutliers_eq_filter xs h]
    refine ⟨List.filter_sublist xs, fun hne hnil => ?_⟩
    have hmapne : xs.map (fun x => absDev x (median xs)) ≠ [] := by
      simpa using hne
    obtain ⟨a, hamem, hale⟩ := exists_le_median _ hmapne
    obtain ⟨x, hx, hxa⟩ := List.mem_map.mp hamem
    have hmad := median_devs_le_madOf xs
    have hbound : absDev x (median xs) ≤ 3 * madOf xs := by omega
    have hxmem : x ∈ xs.filter fun x => absDev x (median xs) ≤ 3 * madOf xs :=
      List.mem_filter.mpr ⟨hx, by simpa using hbound⟩
    rw [hnil] at hxmem
    exact absurd hxmem (List.not_mem_nil x)

/-- Witness for C8 at the concrete input `[10,11,12,13,500]`. -/
theorem rmOutliers_sublist_ne_nil_witness :
    (rmOutliers [10, 11, 12, 13, 500]).Sublist [10, 11, 12, 13, 500] ∧
    rmOutliers [10, 11, 12, 13, 500] ≠ [] :=
  ⟨(rmOutliers_sublist_ne_nil [10, 11, 12, 13, 500]).1,
    (rmOutliers_sublist_ne_nil [10, 11, 12, 13, 500]).2 (by decide)⟩

/-- The recommendation formula in pure integer arithmetic:
`floor(b * 1.12)` is `(b * 112) / 100` in natural-number division. -/
theorem recFee_eq (b p : ℕ) :
    recFee b p = ((b * 112) / 100 : ℕ) + ((max p minimumTip : ℕ) : ℤ) := by
  unfold recFee tip jitter
  have h1 : (b : ℚ) * (1 + 12 / 100) = (((b * 112 : ℕ) : ℤ) : ℚ) / ((100 : ℕ) : ℚ) := by
    push_cast
    ring
  rw [h1, Rat.floor_intCast_div_natCast]
  omega

/-- C4: the recommendation equals `floor(baseMed * (1 + 0.12))` plus
`max(prioMed, 1000000)`; in integer arithmetic that is `(b*112)/100` plus the
effective tip, and for `prioMed = 0` it is exactly `(b*112)/100 + minimumTip`. -/
theorem recFee_spec (b p : ℕ) :
    recFee b p = ⌊(b : ℚ) * (1 + 12 / 100)⌋ + max (p : ℤ) 1000000 ∧
    recFee b p = ((b * 112) / 100 : ℕ) + ((max p minimumTip : ℕ) : ℤ) ∧
    recFee b 0 = ((b * 112) / 100 : ℕ) + ((minimumTip : ℕ) : ℤ) := by
  refine ⟨?_, recFee_eq b p, ?_⟩
  · unfold recFee tip jitter minimumTip
    push_cast
    ring
  · rw [recFee_eq b 0]
    simp [minimumTip]

/-- C5: the recommendation is monotone non-decreasing in both arguments, and
`recommendedFee >= effectiveTip >= minimumTip` always. -/
theorem recFee_monotone :
    (∀ b c p q : ℕ, b ≤ c → p ≤ q → recFee b p ≤ recFee c q) ∧
    (∀ b p : ℕ, (minimumTip : ℤ) ≤ (tip p : ℤ) ∧ (tip p : ℤ) ≤ recFee b p) := by
  constructor
  · intro b c p q hbc hpq
    unfold recFee
    have h1 : ⌊(b : ℚ) * (1 + jitter)⌋ ≤ ⌊(c : ℚ) * (1 + jitter)⌋ := by
      apply Int.floor_le_floor
      have hc : (b : ℚ) ≤ (c : ℚ) := by exact_mod_cast hbc
      have hj : (0 : ℚ) ≤ 1 + jitter := by norm_num [jitter]
      exact mul_le_mul_of_nonneg_right hc hj
    have h2 : (tip p : ℤ) ≤ (tip q : ℤ) := by
      have ht : tip p ≤ tip q := max_le_max hpq le_rfl
      exact_mod_cast ht
    omega
  · intro b p
    constructor
    · have ht : minimumTip ≤ tip p := Nat.le_max_right p minimumTip
      exact_mod_cast ht
    · unfold recFee
      have hf : (0 : ℤ) ≤ ⌊(b : ℚ) * (1 + jitter)⌋ := by
        apply Int.floor_nonneg.mpr
        have hb : (0 : ℚ) ≤ (b : ℚ) := by positivity
        have hj : (0 : ℚ) ≤ 1 + jitter := by norm_num [jitter]
        exact mul_nonneg hb hj
      omega

/-- Witness for C5 at `b = 2 ≤ 5 = c`, `p = 0 ≤ 10 = q`. -/
theorem recFee_monotone_witness :
    recFee 2 0 ≤ recFee 5 10 ∧
    ((minimumTip : ℤ) ≤ (tip 0 : ℤ) ∧ (tip 0 : ℤ) ≤ recFee 2 0) :=
  ⟨recFee_monotone.1 2 5 0 10 (by decide) (by decide), recFee_monotone.2 2 0⟩

/-- C6: the empty SampleSet makes the run fail hard with the `no samples`
error, and no Recommendation is ever produced in that case. -/
theorem runOracle_empty :
    runOracle [] = Except.error "no samples" ∧
    ∀ r : Recommendation, runOracle [] ≠ Except.ok r := by
  refine ⟨rfl, fun r h => ?_⟩
  simp [runOracle] at h

/-- C10: a produced Recommendation lists exactly the provider names of all
input Samples, regardless of what the outlier filter later drops. -/
theorem runOracle_participating (samples : List Sample) (r : Recommendation)
    (h : runOracle samples = Except.ok r) :
    r.providers = samples.map fun s => s.name := by
  unfold runOracle at h
  by_cases hlen : samples.length = 0
  · rw [if_pos hlen] at h
    cases h
  · rw [if_neg hlen] at h
    cases h
    rfl

/-- Witness for C10 on six concrete samples where the sixth provider's values
are outliers (its base fee 9999 is dropped by the filter) yet it still appears
among the providers. -/
theorem runOracle_participating_witness :
    ∃ r : Recommendation,
      runOracle [⟨"ankr", 100, 10, 1⟩, ⟨"alchemy", 102, 12, 1⟩,
          ⟨"public", 98, 8, 1⟩, ⟨"p4", 101, 11, 1⟩, ⟨"p5", 99, 9, 1⟩,
          ⟨"p6", 9999, 9999, 1⟩] = Except.ok r ∧
      r.providers = ["ankr", "alchemy", "public", "p4", "p5", "p6"] := by
  refine ⟨_, rfl, ?_⟩
  exact (runOracle_participating [⟨"ankr", 100, 10, 1⟩, ⟨"alchemy", 102, 12, 1⟩,
    ⟨"public", 98, 8, 1⟩, ⟨"p4", 101, 11, 1⟩, ⟨"p5", 99, 9, 1⟩,
    ⟨"p6", 9999, 9999, 1⟩] _ rfl).trans rfl

/-- C9 counterexample: a present-but-empty response (every fee-history field
missing) is not a complete provider response, yet `sample` builds the
zero-valued Sample from it instead of producing no Sample. -/
theorem sampleOf_incomplete_counterexample :
    ¬(ProviderResult.ok none none none).complete ∧
    sampleOf "public" (ProviderResult.ok none none none) =
      some { name := "public", base := 0, prio := 0, block := 0 } := by
  constructor
  · rintro ⟨⟨l, hl, -⟩, -⟩
    cases hl
  · rfl

/-- C9 (amended): the collector produces no Sample exactly when the query
threw; any non-throwing response, however incomplete, yields a Sample, with
zero-valued defaults substituted for missing fields. -/
theorem sampleOf_none_iff (nm : String) (r : ProviderResult) :
    sampleOf nm r = none ↔ r = ProviderResult.err := by
  cases r <;> simp [sampleOf]

end GasOracle

example : GasOracle.median [1, 3] = 2 := by decide
example : GasOracle.median [1, 2, 3] = 2 := by decide
example : GasOracle.median [] = 0 := by decide
example : GasOracle.rmOutliers [100, 102, 98, 101, 99, 9999] = [100, 102, 98, 101, 99] := by decide
example : GasOracle.rmOutliers [5, 5, 5, 5] = [5, 5, 5, 5] := by decide
